import Mathlib

/-! # Request-orchestration core of the TravelTime platform QGIS plugin

Shallow embedding of the request-orchestration and result-correlation
engine found in `algorithms.py` and
`travel_time_platform_plugin/algorithms/base.py`: input batching, the API
usage-limit guard, the cached request step and usage counter, payload
remixing for the two endpoint variants, result correlation, API-error
reporting, and credential redaction in the diagnostic log.

Machine integers are modelled as `Nat` (the quantities involved - feature
counts, slice indices, usage counters, HTTP status codes - are small and
non-negative); fallible code is modelled with `Except`; the persisted
settings store is threaded explicitly. -/

namespace TTP

/-! ## Request batching

`AdvancedAlgorithmBase.processAlgorithm` (algorithms.py, lines 230-260):

    slicing_size = 10
    slicing_count = math.ceil(max(source_departure_count, source_arrival_count) / slicing_size)
    for slicing_i in range(slicing_count):
        slicing_start = slicing_i * slicing_size
        slicing_end = (slicing_i + 1) * slicing_size
        ...
        for i, feature in enumerate(source.getFeatures()):
            if i < slicing_start or i >= slicing_end:
                continue
            ... append the record ...
-/

/-- `slicing_size = 10`. -/
def slicing_size : Nat := 10

/-- `slicing_count = math.ceil(max(Nd, Na) / slicing_size)`, as a natural
number (`(m + s - 1) / s` is the ceiling of `m / s` for `s > 0`). -/
def slicing_count (nd na : Nat) : Nat :=
  (max nd na + slicing_size - 1) / slicing_size

/-- The input positions of one side (of size `n`) kept by slice `i`: the
enumeration loop skips `j` unless `slicing_start <= j < slicing_end`. -/
def batchIdx (n i : Nat) : List Nat :=
  (List.range n).filter
    (fun j => decide (i * slicing_size ≤ j) && decide (j < (i + 1) * slicing_size))

/-- The sequence of request cycles: one per slice index in
`range(slicing_count)`, each carrying the kept positions of the departure
side and of the arrival side. -/
def batches (nd na : Nat) : List (List Nat × List Nat) :=
  (List.range (slicing_count nd na)).map (fun i => (batchIdx nd i, batchIdx na i))

/-! ## The API usage-limit guard

algorithms.py, lines 302-323: before each request the loop re-reads the
persisted settings (`warning_enabled`, `current_count`, `warning_limit`),
sleeps 10 seconds while `enabled and count >= limit` (where
`count = current_count + 1` and `limit = warning_limit + 1`), and after
`retries = 10` full iterations falls through to the `for`-`else` clause
which raises `QgsProcessingException`.  Nothing inside the loop mutates the
settings, so we model the store as a function giving the values read at the
i-th check (an external actor may change them between sleeps). -/

/-- One reading of the persisted settings:
`(warning_enabled, current_count, warning_limit)`. -/
abbrev SettingsRead := Bool × Nat × Nat

/-- Outcome of the guard loop: how many sleeps were performed, and whether
the loop exited through `break` (proceed to the request) or fell through to
the `else` clause (fatal usage-limit error). -/
structure GuardOutcome where
  sleeps : Nat
  proceeded : Bool
deriving DecidableEq, Repr

/-- `retries = 10`. -/
def retries : Nat := 10

/-- The guard loop body: at check `i` read the settings; if
`enabled and current_count + 1 >= warning_limit + 1` sleep and re-check,
otherwise break.  `fuel` is the number of loop iterations remaining. -/
def guardWait (reads : Nat → SettingsRead) : Nat → Nat → GuardOutcome
  | i, 0 => ⟨i, false⟩
  | i, fuel + 1 =>
    let r := reads i
    if r.1 && decide (r.2.2 + 1 ≤ r.2.1 + 1) then guardWait reads (i + 1) fuel
    else ⟨i, true⟩

/-- The whole `for i in range(retries)` guard loop. -/
def rateGuard (reads : Nat → SettingsRead) : GuardOutcome :=
  guardWait reads 0 retries

/-! ## The request step and the usage counter

Both files issue the request through the fingerprinting response cache and
maintain the persisted `current_count`.  The decisive difference is the
order of operations:

* algorithms.py (lines 333-366) increments the counter as soon as a
  non-cached response object exists (line 341), *before* `json.loads`
  (line 349) and `response.raise_for_status()` (line 350);
* base.py `AlgorithmBase.processAlgorithmMakeRequest` (lines 204-281)
  decodes and checks the status first, and increments only on a fresh
  response that passed both.
-/

/-- The structured API error body. -/
structure ErrorBody where
  error_code : String
  description : String
  documentation_link : String
  additional_info : List (String × String)
deriving DecidableEq, Repr

/-- What `json.loads(response.text)` yields: a `ValueError`
(undecodable), a results payload, or the structured error object. -/
inductive RespBody (α : Type) where
  | undecodable
  | resultsBody (results : List α)
  | errorBody (e : ErrorBody)
deriving DecidableEq, Repr

/-- A response object as the caching session returns it. -/
structure Response (α : Type) where
  from_cache : Bool
  status_code : Nat
  body : RespBody α
deriving DecidableEq, Repr

/-- Outcome of the network call itself: either an exception escapes the
`requests` call (connection refused, timeout, DNS, TLS), or a response
object is produced. -/
inductive NetResult (α : Type) where
  | transportFail
  | resp (r : Response α)
deriving DecidableEq, Repr

/-- The exceptions that can abort one request cycle.  `keyErr` models the
uncaught Python `KeyError` raised when the decoded body does not have the
shape the status code promises. -/
inductive Err where
  | usageLimit
  | transport
  | decode
  | api (status : Nat) (message : String)
  | keyErr
deriving DecidableEq, Repr

/-- `response.raise_for_status()` raises `HTTPError` exactly for
4xx and 5xx status codes. -/
def httpError (c : Nat) : Bool :=
  decide (400 ≤ c) && decide (c < 600)

/-- Python `sep.join(items)`. -/
def joinSep (sep : String) : List String → String
  | [] => ""
  | [x] => x
  | x :: y :: xs => x ++ sep ++ joinSep sep (y :: xs)

/-- One `additional_info` entry as formatted by `'\t{}:\t{}'.format(k, v)`. -/
def infoEntry (kv : String × String) : String :=
  "\t" ++ kv.1 ++ ":\t" ++ kv.2

/-- `nice_info = '\n'.join('\t{}:\t{}'.format(k, v) for k, v in ...)`. -/
def niceInfo (ai : List (String × String)) : String :=
  joinSep "\n" (ai.map infoEntry)

/-- The user-facing API-error message, parameterised by its first line
(the two files spell it differently). -/
def apiErrorMsgWith (head : String) (e : ErrorBody) : String :=
  head ++ "\nError code : " ++ e.error_code
       ++ "\nDescription : " ++ e.description
       ++ "\nSee : " ++ e.documentation_link
       ++ "\nAddtionnal info :\n" ++ niceInfo e.additional_info

/-- The algorithms.py message (the source spells `Recieved`). -/
def apiErrorMessageA (e : ErrorBody) : String :=
  apiErrorMsgWith "Recieved error from the API." e

/-- The base.py message. -/
def apiErrorMessageB (e : ErrorBody) : String :=
  apiErrorMsgWith "Received error from the API." e

/-- base.py `AlgorithmBase.processAlgorithmMakeRequest`, lines 204-281:
request, decode (`ValueError` aborts), `raise_for_status` (`HTTPError`
aborts with the structured message), and only then the cache check and the
counter increment.  Returns the new persisted `current_count` and either
the decoded body or the aborting exception.  An exception raised by the
`request` call itself propagates before any counter access. -/
def processAlgorithmMakeRequest (count : Nat) (net : NetResult α) :
    Nat × Except Err (RespBody α) :=
  match net with
  | .transportFail => (count, .error .transport)
  | .resp r =>
    match r.body with
    | .undecodable => (count, .error .decode)
    | .resultsBody rs =>
      if httpError r.status_code then (count, .error .keyErr)
      else ((if r.from_cache then count else count + 1), .ok (.resultsBody rs))
    | .errorBody e =>
      if httpError r.status_code then
        (count, .error (.api r.status_code (apiErrorMessageB e)))
      else ((if r.from_cache then count else count + 1), .ok (.errorBody e))

/-- The external inputs of one slice iteration of algorithms.py: the
settings values the guard loop reads, and what the network produces. -/
structure SliceInput (α : Type) where
  reads : Nat → SettingsRead
  net : NetResult α

/-- One slice iteration of algorithms.py
`AdvancedAlgorithmBase.processAlgorithm` (lines 302-366): the usage guard,
then the request; on a response object the counter is incremented as soon
as the response is fresh (line 341), before `json.loads` (line 349) and
`raise_for_status` (line 350).  Returns the new persisted `current_count`
and either the decoded `results` list or the aborting exception. -/
def processSlice (count : Nat) (inp : SliceInput α) : Nat × Except Err (List α) :=
  if (rateGuard inp.reads).proceeded then
    match inp.net with
    | .transportFail => (count, .error .transport)
    | .resp r =>
      let count' := if r.from_cache then count else count + 1
      match r.body with
      | .undecodable => (count', .error .decode)
      | .resultsBody rs =>
        if httpError r.status_code then (count', .error .keyErr)
        else (count', .ok rs)
      | .errorBody e =>
        if httpError r.status_code then
          (count', .error (.api r.status_code (apiErrorMessageA e)))
        else (count', .error .keyErr)
  else (count, .error .usageLimit)

/-- The exception/result part of a slice does not depend on the counter
value, so it can be named on its own. -/
def sliceOutcome (inp : SliceInput α) : Except Err (List α) :=
  (processSlice 0 inp).2

/-- The batched driver of algorithms.py: `results = []`, one request cycle
per slice, `results += response_data['results']` on success; the first
exception aborts the whole loop and the accumulated `results` never reach
`processAlgorithmOutput`. -/
def runSlices (count : Nat) (acc : List α) : List (SliceInput α) → Except Err (Nat × List α)
  | [] => .ok (count, acc)
  | inp :: rest =>
    match processSlice count inp with
    | (c, Except.ok rs) => runSlices c (acc ++ rs) rest
    | (_, Except.error e) => .error e

/-! ## Payload remixing

The slice loop builds, for each kept record, a search dict with `id`,
`coords` and the remaining payload fields (transportation, time,
travel_time, properties).  The remixes only move `id` and `coords` around,
so coordinates are abstracted as a type `κ` and the untouched fields as a
pass-through type `ρ`. -/

/-- A `locations` entry: `id` plus coordinates. -/
structure Location (κ : Type) where
  id : String
  coords : κ
deriving DecidableEq, Repr

/-- A departure/arrival search as the slice loop builds it. -/
structure SearchIn (κ ρ : Type) where
  id : String
  coords : κ
  rest : ρ
deriving DecidableEq, Repr

/-- A search after `TimeFilterAlgorithm.processAlgorithmRemixData`:
`coords` deleted (`none`), the location-reference fields added
(`none` on the side that does not apply). -/
structure SearchRemixed (κ ρ : Type) where
  id : String
  coords : Option κ
  departure_location_id : Option String
  arrival_location_ids : Option (List String)
  arrival_location_id : Option String
  departure_location_ids : Option (List String)
  rest : ρ
deriving DecidableEq, Repr

/-- The payload of the location-filtering endpoint. -/
structure TimeFilterData (κ ρ : Type) where
  locations : List (Location κ)
  departure_searches : Option (List (SearchRemixed κ ρ))
  arrival_searches : Option (List (SearchRemixed κ ρ))
deriving DecidableEq, Repr

/-- `TimeFilterAlgorithm.processAlgorithmRemixData` (algorithms.py,
lines 540-580): build `data['locations']` from the locations layer, take
`all_locations_ids` from that list *as it stands*, then for each
departure/arrival search (when the key is present) append its coords to
`locations`, delete its `coords`, point `departure_location_id`
(resp. `arrival_location_id`) at its own id and set the counterpart id
list to `all_locations_ids`. -/
def TimeFilter.processAlgorithmRemixData (locs : List (Location κ))
    (dep arr : Option (List (SearchIn κ ρ))) : TimeFilterData κ ρ :=
  let all_locations_ids := locs.map Location.id
  let depLocs := (dep.getD []).map (fun d => Location.mk d.id d.coords)
  let arrLocs := (arr.getD []).map (fun a => Location.mk a.id a.coords)
  { locations := locs ++ depLocs ++ arrLocs,
    departure_searches := dep.map (List.map (fun d =>
      ⟨d.id, none, some d.id, some all_locations_ids, none, none, d.rest⟩)),
    arrival_searches := arr.map (List.map (fun a =>
      ⟨a.id, none, none, none, some a.id, some all_locations_ids, a.rest⟩)) }

/-- One aggregation descriptor (`unions` / `intersections` entry). -/
structure AggDescriptor where
  id : String
  search_ids : List String
deriving DecidableEq, Repr

/-- The payload of the isochrone endpoint after remixing. -/
structure TimeMapData (κ ρ : Type) where
  departure_searches : Option (List (SearchIn κ ρ))
  arrival_searches : Option (List (SearchIn κ ρ))
  unions : Option (List AggDescriptor)
  intersections : Option (List AggDescriptor)
deriving DecidableEq, Repr

/-- `TimeMapAlgorithm.processAlgorithmRemixData` (algorithms.py, lines
430-447): when union and/or intersection aggregation is requested, collect
the ids of every search present in the data (departure side first, in
construction order) and synthesize a single descriptor per requested
aggregation. -/
def TimeMap.processAlgorithmRemixData (compute_union compute_inter : Bool)
    (dep arr : Option (List (SearchIn κ ρ))) : TimeMapData κ ρ :=
  if compute_union || compute_inter then
    let search_ids := (dep.getD []).map SearchIn.id ++ (arr.getD []).map SearchIn.id
    { departure_searches := dep, arrival_searches := arr,
      unions := if compute_union then some [⟨"union_all", search_ids⟩] else none,
      intersections :=
        if compute_inter then some [⟨"intersection_all", search_ids⟩] else none }
  else
    { departure_searches := dep, arrival_searches := arr,
      unions := none, intersections := none }

/-! ## Result correlation -/

/-- A geometry-carrying `ApiResult` of the isochrone endpoint. -/
structure TimeMapResult (π : Type) where
  search_id : String
  shape : String
  properties : π
deriving DecidableEq, Repr

/-- The sink routing of `TimeMapAlgorithm.processAlgorithmOutput`
(algorithms.py, lines 458-470), returning the contents of the
(searches, union, intersection) sinks in insertion order. -/
def TimeMap.processAlgorithmOutput :
    List (TimeMapResult π) →
    List (TimeMapResult π) × List (TimeMapResult π) × List (TimeMapResult π)
  | [] => ([], [], [])
  | r :: rest =>
    let (n, u, i) := TimeMap.processAlgorithmOutput rest
    if r.search_id == "union_all" then (n, r :: u, i)
    else if r.search_id == "intersection_all" then (n, u, r :: i)
    else (r :: n, u, i)

/-- An original record of the locations layer: its evaluated id expression
plus its geometry/attributes, abstracted as `φ`. -/
structure Feature (φ : Type) where
  id : String
  attrs : φ
deriving DecidableEq, Repr

/-- One per-location entry of a location-shaped `ApiResult`. -/
structure LocEntry (π : Type) where
  id : String
  properties : π
deriving DecidableEq, Repr

/-- A location-shaped `ApiResult` of the filtering endpoint. -/
structure TimeFilterResult (π : Type) where
  search_id : String
  locations : List (LocEntry π)
  unreachable : List String
deriving DecidableEq, Repr

/-- An output feature of the reached sink: the originating record, the
search id and the per-location properties. -/
structure ReachedRow (π φ : Type) where
  feature : Feature φ
  search_id : String
  properties : π
deriving DecidableEq, Repr

/-- An output feature of the unreachable sink. -/
structure UnreachableRow (φ : Type) where
  feature : Feature φ
  search_id : String
deriving DecidableEq, Repr

/-- `get_location_feature` (algorithms.py, lines 601-608): the first
feature of the locations layer whose evaluated id expression equals the
looked-up id (`Return the first one`). -/
def get_location_feature (feats : List (Feature φ)) (id_ : String) :
    Option (Feature φ) :=
  (feats.filter (fun f => f.id == id_)).head?

/-- The `for location in result['locations']` loop: each entry is joined by
id lookup; `assert(base_ft is not None)` raises on a failed lookup. -/
def tfJoinLocations (feats : List (Feature φ)) (sid : String) :
    List (LocEntry π) → Except Unit (List (ReachedRow π φ))
  | [] => .ok []
  | e :: rest =>
    match get_location_feature feats e.id with
    | none => .error ()
    | some f =>
      (tfJoinLocations feats sid rest).map (fun rs => ⟨f, sid, e.properties⟩ :: rs)

/-- The `for id_ in result['unreachable']` loop, same lookup and assert. -/
def tfJoinUnreachable (feats : List (Feature φ)) (sid : String) :
    List String → Except Unit (List (UnreachableRow φ))
  | [] => .ok []
  | i :: rest =>
    match get_location_feature feats i with
    | none => .error ()
    | some f =>
      (tfJoinUnreachable feats sid rest).map (fun rs => ⟨f, sid⟩ :: rs)

/-- The result loop of `TimeFilterAlgorithm.processAlgorithmOutput`
(algorithms.py, lines 610-629), returning the contents of the reached and
unreachable sinks, or the assertion failure. -/
def TimeFilter.processAlgorithmOutput (feats : List (Feature φ)) :
    List (TimeFilterResult π) →
    Except Unit (List (ReachedRow π φ) × List (UnreachableRow φ))
  | [] => .ok ([], [])
  | r :: rest => do
    let rows ← tfJoinLocations feats r.search_id r.locations
    let urows ← tfJoinUnreachable feats r.search_id r.unreachable
    let (rs, us) ← TimeFilter.processAlgorithmOutput feats rest
    return (rows ++ rs, urows ++ us)

/-- The reached rows produced when every lookup succeeds. -/
def joinedRows (feats : List (Feature φ)) (tfs : List (TimeFilterResult π)) :
    List (ReachedRow π φ) :=
  (tfs.map (fun r => r.locations.filterMap (fun e =>
    (get_location_feature feats e.id).map
      (fun f => ⟨f, r.search_id, e.properties⟩)))).flatten

/-- The unreachable rows produced when every lookup succeeds. -/
def joinedUnreach (feats : List (Feature φ)) (tfs : List (TimeFilterResult π)) :
    List (UnreachableRow φ) :=
  (tfs.map (fun r => r.unreachable.filterMap (fun i =>
    (get_location_feature feats i).map (fun f => ⟨f, r.search_id⟩)))).flatten

/-! ## Request headers and the diagnostic log -/

/-- The header map built by base.py `processAlgorithmMakeRequest`. -/
structure Headers where
  content_type : String
  accept : String
  user_agent : String
  app_id : String
  api_key : String
deriving DecidableEq, Repr

/-- base.py, lines 182-186: a copy of the headers with each credential
replaced by `*hidden*` when present (Python string truthiness: non-empty). -/
def headersForLogs (h : Headers) : Headers :=
  { h with
    app_id := if h.app_id == "" then h.app_id else "*hidden*",
    api_key := if h.api_key == "" then h.api_key else "*hidden*" }

/-- What one request attempt exposes: the headers handed to
`cached_requests.request`, and the header map written to the diagnostic
log (when verbose logging is on). -/
structure RequestTranscript (η : Type) where
  sentHeaders : η
  loggedHeaders : Option η
deriving DecidableEq, Repr

/-- base.py, lines 180-211: when `log_calls` is set the *redacted* copy is
logged; the real header map goes to the request. -/
def makeRequestTranscriptB (print_query : Bool) (h : Headers) :
    RequestTranscript Headers :=
  { sentHeaders := h,
    loggedHeaders := if print_query then some (headersForLogs h) else none }

/-- The header map built by algorithms.py (lines 293-298, no user agent). -/
structure HeadersA where
  content_type : String
  accept : String
  app_id : String
  api_key : String
deriving DecidableEq, Repr

/-- algorithms.py, lines 326-335: when `log_calls` is set the headers dict
itself is logged, unredacted, and then handed to the request. -/
def makeRequestTranscriptA (print_query : Bool) (h : HeadersA) :
    RequestTranscript HeadersA :=
  { sentHeaders := h,
    loggedHeaders := if print_query then some h else none }

/-- `s` contains `sub` verbatim. -/
def hasSubstring (s sub : String) : Prop :=
  ∃ pre suf : String, s = pre ++ sub ++ suf

/-! ## Helper lemmas -/

theorem mem_batchIdx (n i j : Nat) :
    j ∈ batchIdx n i ↔ j < n ∧ i * slicing_size ≤ j ∧ j < (i + 1) * slicing_size := by
  simp [batchIdx, List.mem_filter, List.mem_range, Bool.and_eq_true, decide_eq_true_eq,
    and_assoc]

theorem batchIdx_pairwise (n i : Nat) : (batchIdx n i).Pairwise (· < ·) :=
  (List.pairwise_lt_range n).sublist (List.filter_sublist _)

theorem guardWait_le_sleeps (reads : Nat → SettingsRead) (fuel i : Nat) :
    i ≤ (guardWait reads i fuel).sleeps := by
  induction fuel generalizing i with
  | zero => simp [guardWait]
  | succ fuel ih =>
    simp only [guardWait]
    split
    · exact Nat.le_trans (Nat.le_succ i) (ih (i + 1))
    · simp

theorem guardWait_all_over (reads : Nat → SettingsRead) (fuel i : Nat)
    (h : ∀ k, i ≤ k → k < i + fuel → (reads k).1 = true ∧ (reads k).2.2 ≤ (reads k).2.1) :
    guardWait reads i fuel = ⟨i + fuel, false⟩ := by
  induction fuel generalizing i with
  | zero => simp [guardWait]
  | succ fuel ih =>
    have hk := h i (Nat.le_refl i) (by omega)
    simp only [guardWait, hk.1, Bool.true_and, decide_eq_true_eq]
    rw [if_pos (by omega)]
    rw [ih (i + 1) (fun k hk1 hk2 => h k (by omega) (by omega))]
    congr 1
    omega

theorem processSlice_snd_const (count : Nat) (inp : SliceInput α) :
    (processSlice count inp).2 = sliceOutcome inp := by
  obtain ⟨reads, net⟩ := inp
  cases hg : (rateGuard reads).proceeded
  · simp [processSlice, sliceOutcome, hg]
  · cases net with
    | transportFail => simp [processSlice, sliceOutcome, hg]
    | resp r =>
      obtain ⟨fc, sc, body⟩ := r
      cases body <;> cases fc <;>
        simp [processSlice, sliceOutcome, hg] <;>
        (first | rfl | (split <;> rfl))

theorem runSlices_error_of_mem (inputs : List (SliceInput α)) (inp : SliceInput α)
    (e : Err) (hmem : inp ∈ inputs) (hout : sliceOutcome inp = .error e) :
    ∀ count acc, ∃ e', runSlices count acc inputs = .error e' := by
  induction inputs with
  | nil => cases hmem
  | cons hd tl ih =>
    intro count acc
    rcases List.mem_cons.1 hmem with rfl | hmem'
    · have h2 : (processSlice count inp).2 = .error e := by
        rw [processSlice_snd_const, hout]
      unfold runSlices
      rcases hps : processSlice count inp with ⟨c, out⟩
      rw [hps] at h2
      simp only at h2
      subst h2
      exact ⟨e, rfl⟩
    · unfold runSlices
      rcases hps : processSlice count hd with ⟨c, out⟩
      cases out with
      | ok rs => exact ih hmem' c (acc ++ rs)
      | error e' => exact ⟨e', rfl⟩

/-! ## Claim theorems -/

/-- Claim C1: with batch size `S = slicing_size = 10`, the batcher performs
exactly `ceil(max(Nd, Na) / S)` request cycles (stated as: the number of
cycles is `slicing_count`, which is the least `m` with `max Nd Na ≤ m * S`);
batch `i` contains exactly the input positions in `[i*S, (i+1)*S)` that
exist on each side; every original record index lies in exactly one batch;
and batch order matches input order, both inside a batch and across
batches. -/
theorem batching_complete (nd na : Nat) :
    ((batches nd na).length = slicing_count nd na
      ∧ max nd na ≤ (batches nd na).length * slicing_size
      ∧ (∀ m : Nat, max nd na ≤ m * slicing_size → (batches nd na).length ≤ m))
    ∧ (∀ n, n = nd ∨ n = na →
        (∀ i j : Nat, j ∈ batchIdx n i ↔
          j < n ∧ i * slicing_size ≤ j ∧ j < (i + 1) * slicing_size)
        ∧ (∀ j, j < n → ∃! i : Nat, i < slicing_count nd na ∧ j ∈ batchIdx n i)
        ∧ (∀ i, (batchIdx n i).Pairwise (· < ·))
        ∧ (∀ i k j₁ j₂, i < k → j₁ ∈ batchIdx n i → j₂ ∈ batchIdx n k → j₁ < j₂)) := by
  have hlen : (batches nd na).length = slicing_count nd na := by
    simp [batches]
  refine ⟨⟨hlen, ?_, ?_⟩, ?_⟩
  · rw [hlen]
    simp only [slicing_count, slicing_size]
    omega
  · intro m hm
    rw [hlen]
    simp only [slicing_count, slicing_size] at *
    omega
  · intro n hn
    have hn' : n ≤ max nd na := by rcases hn with rfl | rfl <;> omega
    refine ⟨mem_batchIdx n, ?_, batchIdx_pairwise n, ?_⟩
    · intro j hj
      refine ⟨j / slicing_size, ⟨?_, ?_⟩, ?_⟩
      · simp only [slicing_count, slicing_size] at *
        omega
      · rw [mem_batchIdx]
        simp only [slicing_size] at *
        omega
      · intro y hy
        rw [mem_batchIdx] at hy
        simp only [slicing_size] at *
        omega
    · intro i k j₁ j₂ hik h1 h2
      rw [mem_batchIdx] at h1 h2
      simp only [slicing_size] at *
      nlinarith [h1.2.2, h2.2.1]

/-- Witness for C1: 23 departure and 5 arrival records need at most 3
cycles, and position 17 lands in batch 1. -/
theorem batching_complete_inst :
    (batches 23 5).length ≤ 3 ∧ 17 ∈ batchIdx 23 1 := by
  have h := batching_complete 23 5
  refine ⟨h.1.2.2 3 (by decide), ?_⟩
  exact ((h.2 23 (Or.inl rfl)).1 1 17).mpr (by decide)

/-- Claim C3: with the guard enabled and `warning_limit = L`, a persisted
`current_count` of `L - 1` lets the guard proceed at the first check with
zero sleeps, while a persisted `current_count` of `L` makes it sleep before
any re-check (at least one sleep, whatever the later readings are). -/
theorem rate_guard_threshold (L : Nat) (reads₁ reads₂ : Nat → SettingsRead)
    (hL : 1 ≤ L) (h₁ : reads₁ 0 = (true, L - 1, L)) (h₂ : reads₂ 0 = (true, L, L)) :
    rateGuard reads₁ = ⟨0, true⟩ ∧ 1 ≤ (rateGuard reads₂).sleeps := by
  constructor
  · show guardWait reads₁ 0 retries = ⟨0, true⟩
    unfold retries guardWait
    rw [h₁]
    simp only [decide_eq_true_eq]
    rw [if_neg (by simp; omega)]
  · show 1 ≤ (guardWait reads₂ 0 retries).sleeps
    unfold retries guardWait
    rw [h₂]
    simp only [decide_eq_true_eq]
    rw [if_pos (by simp)]
    exact guardWait_le_sleeps reads₂ 9 1

/-- Witness for C3 at `L = 5`. -/
theorem rate_guard_threshold_inst :
    rateGuard (fun _ => (true, 4, 5)) = ⟨0, true⟩
      ∧ 1 ≤ (rateGuard (fun _ => (true, 5, 5))).sleeps :=
  rate_guard_threshold 5 _ _ (by decide) rfl rfl

/-- Claim C4: if the guard is enabled and the persisted count is at or
above the threshold at every one of the `retries = 10` re-checks, the
guard performs exactly 10 check/sleep cycles and then gives up without
proceeding; the request of that slice is never issued (the slice outcome
is the usage-limit exception whatever the network would have answered),
and any batched run containing that slice aborts with an exception. -/
theorem rate_guard_bounded_abort (α : Type) (reads : Nat → SettingsRead)
    (h : ∀ i, i < retries → (reads i).1 = true ∧ (reads i).2.2 ≤ (reads i).2.1) :
    rateGuard reads = ⟨retries, false⟩
    ∧ (∀ (count : Nat) (net : NetResult α),
        processSlice count ⟨reads, net⟩ = (count, Except.error Err.usageLimit))
    ∧ (∀ (count : Nat) (acc : List α) (inputs : List (SliceInput α)) (net : NetResult α),
        (⟨reads, net⟩ : SliceInput α) ∈ inputs →
        ∃ e, runSlices count acc inputs = .error e) := by
  have hg : rateGuard reads = ⟨retries, false⟩ := by
    have := guardWait_all_over reads retries 0 (fun k hk0 hk => h k (by omega))
    simpa [rateGuard] using this
  have hslice : ∀ (count : Nat) (net : NetResult α),
      processSlice count ⟨reads, net⟩ = (count, Except.error Err.usageLimit) := by
    intro count net
    unfold processSlice
    rw [if_neg (by rw [hg]; simp)]
  refine ⟨hg, hslice, ?_⟩
  intro count acc inputs net hmem
  exact runSlices_error_of_mem inputs ⟨reads, net⟩ Err.usageLimit hmem
    (by rw [sliceOutcome, hslice]) count acc

/-- Witness for C4: settings pinned at count 99, limit 10. -/
theorem rate_guard_bounded_abort_inst :
    rateGuard (fun _ => (true, 99, 10)) = ⟨retries, false⟩
    ∧ processSlice 7 (⟨fun _ => (true, 99, 10), NetResult.transportFail⟩ : SliceInput Nat)
        = (7, Except.error Err.usageLimit) := by
  have h := rate_guard_bounded_abort Nat (fun _ => (true, 99, 10))
    (fun i _ => ⟨rfl, by show (10 : Nat) ≤ 99; decide⟩)
  exact ⟨h.1, h.2.1 7 .transportFail⟩

/-- Claim C5: if any slice of a batched operation fails (usage-limit,
transport, HTTP error, decode error, or shape mismatch), the whole run
returns the exception: no result list reaches the output stage, whatever
`ApiResult`s earlier slices had already accumulated (`Except.error`
carries no results). -/
theorem batch_failure_aborts (α : Type) (count : Nat) (acc : List α)
    (inputs : List (SliceInput α))
    (h : ∃ inp ∈ inputs, ∃ e, sliceOutcome inp = Except.error e) :
    ∃ e, runSlices count acc inputs = .error e := by
  obtain ⟨inp, hmem, e, hout⟩ := h
  exact runSlices_error_of_mem inputs inp e hmem hout count acc

/-- Witness for C5: a single slice whose network call fails, with results
already accumulated from before. -/
theorem batch_failure_aborts_inst :
    ∃ e, runSlices 3 [10, 20]
      [(⟨fun _ => (false, 0, 0), NetResult.transportFail⟩ : SliceInput Nat)]
      = .error e :=
  batch_failure_aborts Nat 3 [10, 20] _
    ⟨_, List.mem_singleton.mpr rfl, Err.transport, rfl⟩

/-- Claim C2 (amended): in base.py's `processAlgorithmMakeRequest` the
persisted counter behaves as the claim states: it is unchanged when the
response is served from the cache, unchanged whenever the call fails
(transport failure, undecodable body, HTTP error status or shape
mismatch), and incremented by exactly one only on a fresh successful
response.  In algorithms.py's inline request handling, however, the
counter is incremented for *every* non-cached response object, including
HTTP-error and undecodable-body responses; there only cache hits,
transport failures and usage-limit aborts leave it unchanged. -/
theorem usage_counter_mutation (α : Type) (count : Nat) (net : NetResult α)
    (inp : SliceInput α) :
    (∀ r : Response α, net = .resp r → r.from_cache = true →
        (processAlgorithmMakeRequest count net).1 = count)
    ∧ (∀ e, (processAlgorithmMakeRequest count net).2 = .error e →
        (processAlgorithmMakeRequest count net).1 = count)
    ∧ (∀ (r : Response α) b, net = .resp r → r.from_cache = false →
        (processAlgorithmMakeRequest count net).2 = Except.ok b →
        (processAlgorithmMakeRequest count net).1 = count + 1)
    ∧ ((rateGuard inp.reads).proceeded = true → ∀ r, inp.net = .resp r →
        (processSlice count inp).1 = (if r.from_cache then count else count + 1))
    ∧ (inp.net = .transportFail → (processSlice count inp).1 = count)
    ∧ ((rateGuard inp.reads).proceeded = false → (processSlice count inp).1 = count) := by
  obtain ⟨reads, snet⟩ := inp
  refine ⟨?_, ?_, ?_, ?_, ?_, ?_⟩
  · rintro r rfl hfc
    obtain ⟨fc, sc, body⟩ := r
    cases body <;> simp_all [processAlgorithmMakeRequest] <;> split <;> rfl
  · intro e he
    cases net with
    | transportFail => rfl
    | resp r =>
      obtain ⟨fc, sc, body⟩ := r
      cases body with
      | undecodable => rfl
      | resultsBody rs =>
        by_cases hs : httpError sc = true <;>
          simp_all [processAlgorithmMakeRequest]
      | errorBody eb =>
        by_cases hs : httpError sc = true <;>
          simp_all [processAlgorithmMakeRequest]
  · rintro r b rfl hfc hok
    obtain ⟨fc, sc, body⟩ := r
    subst hfc
    cases body with
    | undecodable => simp_all [processAlgorithmMakeRequest]
    | resultsBody rs =>
      by_cases hs : httpError sc = true <;>
        simp_all [processAlgorithmMakeRequest]
    | errorBody eb =>
      by_cases hs : httpError sc = true <;>
        simp_all [processAlgorithmMakeRequest]
  · rintro hg r hr
    simp only at hr
    subst hr
    obtain ⟨fc, sc, body⟩ := r
    cases body <;> simp_all [processSlice] <;> split <;> rfl
  · intro hr
    simp only at hr
    subst hr
    simp only [processSlice]
    split <;> rfl
  · intro hg
    simp [processSlice, hg]

/-- Counterexample to claim C2 as stated: in algorithms.py, a fresh
(non-cached) response with HTTP status 400 and a structured error body is
a failed request, yet the persisted counter moves from 0 to 1. -/
theorem usage_counter_claim_cex :
    processSlice 0
      (⟨fun _ => (false, 0, 0),
        .resp ⟨false, 400, .errorBody ⟨"X", "Y", "Z", []⟩⟩⟩ : SliceInput Nat)
      = (1, Except.error (Err.api 400 (apiErrorMessageA ⟨"X", "Y", "Z", []⟩))) := by
  rfl

/-- Witness for C2 (amended): a cached successful response leaves the
base.py counter at 3, and a transport failure leaves the algorithms.py
counter at 3. -/
theorem usage_counter_mutation_inst :
    (processAlgorithmMakeRequest 3 (.resp (⟨true, 200, .resultsBody [(5 : Nat)]⟩))).1 = 3
    ∧ (processSlice 3 (⟨fun _ => (false, 0, 0), .transportFail⟩ : SliceInput Nat)).1 = 3 := by
  have h := usage_counter_mutation Nat 3
    (.resp (⟨true, 200, .resultsBody [(5 : Nat)]⟩))
    (⟨fun _ => (false, 0, 0), .transportFail⟩ : SliceInput Nat)
  exact ⟨h.1 _ rfl rfl, h.2.2.2.2.1 rfl⟩

/-- Claim C6 (amended): the location-filtering remix (1) merges every
`LocationRecord` and the coordinates of every `SearchDefinition` into the
single flat `locations` list (original locations first, then departure
coords, then arrival coords), (2) removes the embedded `coords` from every
departure/arrival search, (3) sets its `departure_location_id`
(resp. `arrival_location_id`) to its own id — and (4, amended) sets its
counterpart id list to the ids of the *original* `LocationRecord`s (the
`locations` list as it stood before the searches' coordinates were merged
in), which therefore excludes the ids of the search-derived locations,
its own and the other searches' alike. -/
theorem time_filter_remix (κ ρ : Type) (locs : List (Location κ))
    (dep arr : Option (List (SearchIn κ ρ))) :
    (TimeFilter.processAlgorithmRemixData locs dep arr).locations
        = locs ++ (dep.getD []).map (fun d => Location.mk d.id d.coords)
               ++ (arr.getD []).map (fun a => Location.mk a.id a.coords)
    ∧ (∀ ds, dep = some ds →
        ∃ rs, (TimeFilter.processAlgorithmRemixData locs dep arr).departure_searches = some rs
          ∧ rs.map SearchRemixed.id = ds.map SearchIn.id
          ∧ rs.map SearchRemixed.rest = ds.map SearchIn.rest
          ∧ ∀ r ∈ rs, r.coords = none
              ∧ r.departure_location_id = some r.id
              ∧ r.arrival_location_ids = some (locs.map Location.id)
              ∧ r.arrival_location_id = none
              ∧ r.departure_location_ids = none)
    ∧ (∀ bs, arr = some bs →
        ∃ rs, (TimeFilter.processAlgorithmRemixData locs dep arr).arrival_searches = some rs
          ∧ rs.map SearchRemixed.id = bs.map SearchIn.id
          ∧ rs.map SearchRemixed.rest = bs.map SearchIn.rest
          ∧ ∀ r ∈ rs, r.coords = none
              ∧ r.arrival_location_id = some r.id
              ∧ r.departure_location_ids = some (locs.map Location.id)
              ∧ r.departure_location_id = none
              ∧ r.arrival_location_ids = none)
    ∧ (dep = none →
        (TimeFilter.processAlgorithmRemixData locs dep arr).departure_searches = none)
    ∧ (arr = none →
        (TimeFilter.processAlgorithmRemixData locs dep arr).arrival_searches = none) := by
  refine ⟨rfl, ?_, ?_, ?_, ?_⟩
  · rintro ds rfl
    refine ⟨_, rfl, by simp [Function.comp], by simp [Function.comp], ?_⟩
    intro r hr
    obtain ⟨d, hd, rfl⟩ := List.mem_map.1 hr
    exact ⟨rfl, rfl, rfl, rfl, rfl⟩
  · rintro bs rfl
    refine ⟨_, rfl, by simp [Function.comp], by simp [Function.comp], ?_⟩
    intro r hr
    obtain ⟨a, ha, rfl⟩ := List.mem_map.1 hr
    exact ⟨rfl, rfl, rfl, rfl, rfl⟩
  · rintro rfl; rfl
  · rintro rfl; rfl

/-- Counterexample to claim C6 as stated: with one original location `L`
and two departure searches `a`, `b`, the flat `locations` list of the
remixed payload has ids `[L, a, b]`, so "the list of all other location
ids" for search `a` would be `[L, b]` — but the code assigns both searches
the counterpart list `[L]` (the snapshot taken before the searches were
merged in), which omits `b`. -/
theorem time_filter_remix_cex :
    ((TimeFilter.processAlgorithmRemixData
        [⟨"L", (0 : Nat)⟩] (some [⟨"a", 1, ()⟩, ⟨"b", 2, ()⟩]) none).locations.map
          Location.id = ["L", "a", "b"])
    ∧ ((TimeFilter.processAlgorithmRemixData
        [⟨"L", (0 : Nat)⟩] (some [⟨"a", 1, ()⟩, ⟨"b", 2, ()⟩]) none).departure_searches.getD []).map
          SearchRemixed.arrival_location_ids = [some ["L"], some ["L"]]
    ∧ (some ["L"] : Option (List String)) ≠ some ["L", "b"] := by
  refine ⟨rfl, rfl, by decide⟩

/-- Witness for C6 (amended) on a concrete payload. -/
theorem time_filter_remix_inst :
    (TimeFilter.processAlgorithmRemixData [⟨"L", (0 : Nat)⟩]
        (some [⟨"a", (1 : Nat), ()⟩]) none).locations = [⟨"L", 0⟩, ⟨"a", 1⟩]
    ∧ (TimeFilter.processAlgorithmRemixData [⟨"L", (0 : Nat)⟩]
        (some [⟨"a", (1 : Nat), ()⟩]) none).arrival_searches = none := by
  have h := time_filter_remix Nat Unit [⟨"L", 0⟩] (some [⟨"a", 1, ()⟩]) none
  exact ⟨by simpa using h.1, h.2.2.2.2 rfl⟩

/-- Claim C7: the isochrone remix passes the searches through unchanged
and, when union (resp. intersection) aggregation is requested, adds
exactly one aggregation descriptor, with id `union_all`
(resp. `intersection_all`) and `search_ids` listing every constructed
search id, departure searches before arrival searches, in construction
order; no descriptor is added for an aggregation that was not requested. -/
theorem time_map_aggregation (κ ρ : Type) (cu ci : Bool)
    (dep arr : Option (List (SearchIn κ ρ))) :
    (TimeMap.processAlgorithmRemixData cu ci dep arr).departure_searches = dep
    ∧ (TimeMap.processAlgorithmRemixData cu ci dep arr).arrival_searches = arr
    ∧ (cu = true → (TimeMap.processAlgorithmRemixData cu ci dep arr).unions
        = some [⟨"union_all",
            (dep.getD []).map SearchIn.id ++ (arr.getD []).map SearchIn.id⟩])
    ∧ (ci = true → (TimeMap.processAlgorithmRemixData cu ci dep arr).intersections
        = some [⟨"intersection_all",
            (dep.getD []).map SearchIn.id ++ (arr.getD []).map SearchIn.id⟩])
    ∧ (cu = false → (TimeMap.processAlgorithmRemixData cu ci dep arr).unions = none)
    ∧ (ci = false →
        (TimeMap.processAlgorithmRemixData cu ci dep arr).intersections = none) := by
  cases cu <;> cases ci <;>
    simp [TimeMap.processAlgorithmRemixData]

/-- Witness for C7: union aggregation over the two searches `a`, `b`
produces exactly one descriptor `union_all` with `search_ids = [a, b]`. -/
theorem time_map_aggregation_inst :
    (TimeMap.processAlgorithmRemixData true false
        (some [⟨"a", (0 : Nat), ()⟩, ⟨"b", 1, ()⟩]) none).unions
      = some [⟨"union_all", ["a", "b"]⟩] := by
  have h := time_map_aggregation Nat Unit true false
    (some [⟨"a", 0, ()⟩, ⟨"b", 1, ()⟩]) none
  simpa using h.2.2.1 rfl

theorem get_location_feature_spec (feats : List (Feature φ)) (i : String)
    (f : Feature φ) (h : get_location_feature feats i = some f) :
    f ∈ feats ∧ f.id = i := by
  induction feats with
  | nil => simp [get_location_feature] at h
  | cons g gs ih =>
    by_cases hg : (g.id == i) = true
    · rw [get_location_feature, List.filter_cons, if_pos hg] at h
      simp only [List.head?_cons, Option.some.injEq] at h
      subst h
      exact ⟨List.mem_cons_self g gs, beq_iff_eq.mp hg⟩
    · rw [get_location_feature, List.filter_cons,
        if_neg hg] at h
      obtain ⟨hmem, hid⟩ := ih h
      exact ⟨List.mem_cons_of_mem g hmem, hid⟩

theorem get_location_feature_exists (feats : List (Feature φ)) (i : String)
    (h : ∃ f ∈ feats, f.id = i) : ∃ g, get_location_feature feats i = some g := by
  induction feats with
  | nil => simp at h
  | cons g gs ih =>
    by_cases hg : (g.id == i) = true
    · exact ⟨g, by rw [get_location_feature, List.filter_cons, if_pos hg]; rfl⟩
    · obtain ⟨f, hf, hfi⟩ := h
      rcases List.mem_cons.1 hf with rfl | hmem
      · exact absurd (beq_iff_eq.mpr hfi) hg
      · obtain ⟨g', hg'⟩ := ih ⟨f, hmem, hfi⟩
        exact ⟨g', by rw [get_location_feature, List.filter_cons, if_neg hg]; exact hg'⟩

theorem get_location_feature_none (feats : List (Feature φ)) (i : String)
    (h : ∀ f ∈ feats, f.id ≠ i) : get_location_feature feats i = none := by
  rw [get_location_feature,
    List.filter_eq_nil_iff.mpr (fun f hf => by simp [h f hf])]
  rfl

theorem get_location_feature_nodup (feats : List (Feature φ))
    (hnd : (feats.map Feature.id).Nodup) (f : Feature φ) (hf : f ∈ feats) :
    get_location_feature feats f.id = some f := by
  induction feats with
  | nil => cases hf
  | cons g gs ih =>
    rw [List.map_cons, List.nodup_cons] at hnd
    rcases List.mem_cons.1 hf with rfl | hmem
    · rw [get_location_feature, List.filter_cons, if_pos (beq_iff_eq.mpr rfl)]
      rfl
    · have hne : (g.id == f.id) = false := by
        refine beq_eq_false_iff_ne.mpr (fun he => hnd.1 ?_)
        exact he ▸ List.mem_map_of_mem Feature.id hmem
      rw [get_location_feature, List.filter_cons, if_neg (by simp [hne])]
      exact ih hnd.2 hmem

theorem tfJoinLocations_ok (feats : List (Feature φ)) (sid : String)
    (entries : List (LocEntry π))
    (h : ∀ e ∈ entries, ∃ f ∈ feats, f.id = e.id) :
    tfJoinLocations feats sid entries
      = .ok (entries.filterMap (fun e => (get_location_feature feats e.id).map
          (fun f => ⟨f, sid, e.properties⟩))) := by
  induction entries with
  | nil => rfl
  | cons e rest ih =>
    obtain ⟨g, hge⟩ := get_location_feature_exists feats e.id (h e (by simp))
    rw [tfJoinLocations, hge, ih (fun x hx => h x (by simp [hx]))]
    simp [List.filterMap_cons, hge, Except.map]

theorem tfJoinUnreachable_ok (feats : List (Feature φ)) (sid : String)
    (ids : List String) (h : ∀ i ∈ ids, ∃ f ∈ feats, f.id = i) :
    tfJoinUnreachable feats sid ids
      = .ok (ids.filterMap (fun i => (get_location_feature feats i).map
          (fun f => ⟨f, sid⟩))) := by
  induction ids with
  | nil => rfl
  | cons i rest ih =>
    obtain ⟨g, hge⟩ := get_location_feature_exists feats i (h i (by simp))
    rw [tfJoinUnreachable, hge, ih (fun x hx => h x (by simp [hx]))]
    simp [List.filterMap_cons, hge, Except.map]

theorem tfJoinLocations_error (feats : List (Feature φ)) (sid : String)
    (entries : List (LocEntry π))
    (h : ∃ e ∈ entries, ∀ f ∈ feats, f.id ≠ e.id) :
    tfJoinLocations feats sid entries = .error () := by
  induction entries with
  | nil => simp at h
  | cons e rest ih =>
    obtain ⟨e', he', hfail⟩ := h
    rcases List.mem_cons.1 he' with rfl | hmem
    · rw [tfJoinLocations, get_location_feature_none feats e'.id hfail]
    · cases hg : get_location_feature feats e.id with
      | none => rw [tfJoinLocations, hg]
      | some g =>
        rw [tfJoinLocations, hg, ih ⟨e', hmem, hfail⟩]
        rfl

theorem time_map_routing (results : List (TimeMapResult π)) :
    TimeMap.processAlgorithmOutput results
      = (results.filter (fun r => !(r.search_id == "union_all")
            && !(r.search_id == "intersection_all")),
         results.filter (fun r => r.search_id == "union_all"),
         results.filter (fun r => r.search_id == "intersection_all")) := by
  induction results with
  | nil => rfl
  | cons r rest ih =>
    simp only [TimeMap.processAlgorithmOutput, ih, List.filter_cons]
    by_cases h1 : r.search_id = "union_all"
    · have h2 : (r.search_id == "intersection_all") = false := by
        rw [h1]; decide
      simp [h1, h2]
    · by_cases h2 : r.search_id = "intersection_all"
      · simp [h2, beq_eq_false_iff_ne.mpr h1]
      · simp [beq_eq_false_iff_ne.mpr h1, beq_eq_false_iff_ne.mpr h2]

theorem tf_output_ok (feats : List (Feature φ)) (tfs : List (TimeFilterResult π))
    (h : ∀ r ∈ tfs, (∀ e ∈ r.locations, ∃ f ∈ feats, f.id = e.id)
        ∧ (∀ i ∈ r.unreachable, ∃ f ∈ feats, f.id = i)) :
    TimeFilter.processAlgorithmOutput feats tfs
      = .ok (joinedRows feats tfs, joinedUnreach feats tfs) := by
  induction tfs with
  | nil => rfl
  | cons r rest ih =>
    rw [TimeFilter.processAlgorithmOutput,
      tfJoinLocations_ok feats _ _ (h r (by simp)).1,
      tfJoinUnreachable_ok feats _ _ (h r (by simp)).2,
      ih (fun x hx => h x (by simp [hx]))]
    rfl

theorem tf_output_error (feats : List (Feature φ)) (tfs : List (TimeFilterResult π))
    (h : ∃ r ∈ tfs, ∃ e ∈ r.locations, ∀ f ∈ feats, f.id ≠ e.id) :
    TimeFilter.processAlgorithmOutput feats tfs = .error () := by
  induction tfs with
  | nil => simp at h
  | cons r rest ih =>
    obtain ⟨r', hr', he⟩ := h
    rcases List.mem_cons.1 hr' with rfl | hmem
    · rw [TimeFilter.processAlgorithmOutput, tfJoinLocations_error feats _ _ he]
      rfl
    · cases hjl : tfJoinLocations feats r.search_id r.locations with
      | error u => cases u; rw [TimeFilter.processAlgorithmOutput, hjl]; rfl
      | ok rows =>
        cases hju : tfJoinUnreachable feats r.search_id r.unreachable with
        | error u => cases u; rw [TimeFilter.processAlgorithmOutput, hjl, hju]; rfl
        | ok urows =>
          rw [TimeFilter.processAlgorithmOutput, hjl, hju, ih ⟨r', hmem, he⟩]
          rfl

/-- Claim C8: the correlator routes every geometry-carrying result by its
`search_id` — `union_all` to the union sink, `intersection_all` to the
intersection sink, everything else to the normal sink — preserving order;
for location-shaped results every per-location entry is re-joined to an
originating record found by id lookup (the record found always carries the
looked-up id, and when record ids are unique it is exactly the one record
with that id), and a lookup that finds no matching record makes the whole
output step fail with the assertion, not with a recoverable result. -/
theorem result_correlation (π φ : Type) (results : List (TimeMapResult π))
    (feats : List (Feature φ)) (tfs : List (TimeFilterResult π))
    (hmatch : ∀ r ∈ tfs, (∀ e ∈ r.locations, ∃ f ∈ feats, f.id = e.id)
        ∧ (∀ i ∈ r.unreachable, ∃ f ∈ feats, f.id = i)) :
    TimeMap.processAlgorithmOutput results
      = (results.filter (fun r => !(r.search_id == "union_all")
            && !(r.search_id == "intersection_all")),
         results.filter (fun r => r.search_id == "union_all"),
         results.filter (fun r => r.search_id == "intersection_all"))
    ∧ (∀ i f, get_location_feature feats i = some f → f ∈ feats ∧ f.id = i)
    ∧ ((feats.map Feature.id).Nodup →
        ∀ f ∈ feats, get_location_feature feats f.id = some f)
    ∧ TimeFilter.processAlgorithmOutput feats tfs
        = .ok (joinedRows feats tfs, joinedUnreach feats tfs)
    ∧ (∀ tfs' : List (TimeFilterResult π),
        (∃ r ∈ tfs', ∃ e ∈ r.locations, ∀ f ∈ feats, f.id ≠ e.id) →
        TimeFilter.processAlgorithmOutput feats tfs' = .error ()) :=
  ⟨time_map_routing results,
   fun i f h => get_location_feature_spec feats i f h,
   fun hnd f hf => get_location_feature_nodup feats hnd f hf,
   tf_output_ok feats tfs hmatch,
   fun tfs' h => tf_output_error feats tfs' h⟩

/-- Witness for C8: two geometry results split between the union and the
normal sink, and one location-shaped result joined back to the single
matching record. -/
theorem result_correlation_inst :
    TimeMap.processAlgorithmOutput
        [⟨"union_all", "W1", (1 : Nat)⟩, ⟨"x", "W2", 2⟩]
      = ([⟨"x", "W2", 2⟩], [⟨"union_all", "W1", 1⟩], [])
    ∧ TimeFilter.processAlgorithmOutput [⟨"a", (0 : Nat)⟩]
        [⟨"s", [⟨"a", (7 : Nat)⟩], []⟩]
      = .ok ([⟨⟨"a", 0⟩, "s", 7⟩], []) := by
  have h := result_correlation Nat Nat
    [⟨"union_all", "W1", 1⟩, ⟨"x", "W2", 2⟩] [⟨"a", 0⟩] [⟨"s", [⟨"a", 7⟩], []⟩]
    (by decide)
  exact ⟨h.1.trans (by rfl), h.2.2.2.1.trans (by rfl)⟩

theorem hasSubstring_append_left (s t sub : String) (h : hasSubstring s sub) :
    hasSubstring (s ++ t) sub := by
  obtain ⟨p, q, rfl⟩ := h
  exact ⟨p, q ++ t, by simp [String.append_assoc]⟩

theorem hasSubstring_append_right (s t sub : String) (h : hasSubstring t sub) :
    hasSubstring (s ++ t) sub := by
  obtain ⟨p, q, rfl⟩ := h
  exact ⟨s ++ p, q, by simp [String.append_assoc]⟩

theorem joinSep_contains (sep x : String) (l : List String) (h : x ∈ l) :
    hasSubstring (joinSep sep l) x := by
  induction l with
  | nil => cases h
  | cons y ys ih =>
    rcases List.mem_cons.1 h with rfl | hmem
    · cases ys with
      | nil => exact ⟨"", "", by simp [joinSep]⟩
      | cons z zs =>
        exact ⟨"", sep ++ joinSep sep (z :: zs), by simp [joinSep, String.append_assoc]⟩
    · cases ys with
      | nil => cases hmem
      | cons z zs =>
        have hx := hasSubstring_append_right (y ++ sep) _ _ (ih hmem)
        simpa [joinSep, String.append_assoc] using hx

theorem apiErrorMsg_contains (head : String) (e : ErrorBody) :
    hasSubstring (apiErrorMsgWith head e) e.error_code
    ∧ hasSubstring (apiErrorMsgWith head e) e.description
    ∧ hasSubstring (apiErrorMsgWith head e) e.documentation_link
    ∧ ∀ kv ∈ e.additional_info, hasSubstring (apiErrorMsgWith head e) (infoEntry kv) := by
  refine ⟨?_, ?_, ?_, ?_⟩
  · exact ⟨head ++ "\nError code : ",
      "\nDescription : " ++ e.description ++ "\nSee : " ++ e.documentation_link
        ++ "\nAddtionnal info :\n" ++ niceInfo e.additional_info,
      by simp [apiErrorMsgWith, String.append_assoc]⟩
  · exact ⟨head ++ "\nError code : " ++ e.error_code ++ "\nDescription : ",
      "\nSee : " ++ e.documentation_link
        ++ "\nAddtionnal info :\n" ++ niceInfo e.additional_info,
      by simp [apiErrorMsgWith, String.append_assoc]⟩
  · exact ⟨head ++ "\nError code : " ++ e.error_code ++ "\nDescription : "
        ++ e.description ++ "\nSee : ",
      "\nAddtionnal info :\n" ++ niceInfo e.additional_info,
      by simp [apiErrorMsgWith, String.append_assoc]⟩
  · intro kv hkv
    exact hasSubstring_append_right _ _ _
      (joinSep_contains "\n" (infoEntry kv) (e.additional_info.map infoEntry)
        (List.mem_map_of_mem infoEntry hkv))

/-- Claim C9: an HTTP error-status response carrying the structured error
object is classified as the structured API error: both request paths
return the `api` exception whose user-facing message is built from the
body, and that message contains the error code, the description, the
documentation link and every `additional_info` entry verbatim; the
outcome is an exception (aborting the operation), not a retry. -/
theorem api_error_reported (α : Type) (e : ErrorBody) (code count : Nat) (fc : Bool)
    (reads : Nat → SettingsRead) (hc : httpError code = true)
    (hg : (rateGuard reads).proceeded = true) :
    (processAlgorithmMakeRequest count (.resp (⟨fc, code, .errorBody e⟩ : Response α))).2
        = .error (.api code (apiErrorMessageB e))
    ∧ (processSlice count (⟨reads, .resp ⟨fc, code, .errorBody e⟩⟩ : SliceInput α)).2
        = .error (.api code (apiErrorMessageA e))
    ∧ (∀ head, hasSubstring (apiErrorMsgWith head e) e.error_code
        ∧ hasSubstring (apiErrorMsgWith head e) e.description
        ∧ hasSubstring (apiErrorMsgWith head e) e.documentation_link
        ∧ ∀ kv ∈ e.additional_info, hasSubstring (apiErrorMsgWith head e) (infoEntry kv)) := by
  refine ⟨?_, ?_, fun head => apiErrorMsg_contains head e⟩
  · simp [processAlgorithmMakeRequest, hc]
  · simp [processSlice, hg, hc]

/-- Witness for C9 at status 400 and body `(X, Y, Z, {k: v})`. -/
theorem api_error_reported_inst :
    (processSlice 5 (⟨fun _ => (false, 0, 0),
        .resp ⟨false, 400, .errorBody ⟨"X", "Y", "Z", [("k", "v")]⟩⟩⟩ : SliceInput Nat)).2
      = .error (.api 400 (apiErrorMessageA ⟨"X", "Y", "Z", [("k", "v")]⟩))
    ∧ hasSubstring (apiErrorMsgWith "Received error from the API."
        ⟨"X", "Y", "Z", [("k", "v")]⟩) "X" := by
  have h := api_error_reported Nat ⟨"X", "Y", "Z", [("k", "v")]⟩ 400 5 false
    (fun _ => (false, 0, 0)) (by decide) rfl
  exact ⟨h.2.1, (h.2.2 "Received error from the API.").1⟩

/-- Claim C10 (amended): in base.py's `processAlgorithmMakeRequest`, the
claim holds: the logged header map has `X-Application-Id` and `X-Api-Key`
replaced by `*hidden*` whenever a credential is present, the real
credentials are handed only to the actual request, and the logged output
does not depend on the credential values.  The legacy request path in
algorithms.py, however, logs the header map unredacted (see the
counterexample). -/
theorem credential_log_redaction (pq : Bool) (h h' : Headers)
    (ha : h.app_id ≠ "") (hk : h.api_key ≠ "")
    (ha' : h'.app_id ≠ "") (hk' : h'.api_key ≠ "")
    (hct : h'.content_type = h.content_type) (hac : h'.accept = h.accept)
    (hua : h'.user_agent = h.user_agent) :
    (makeRequestTranscriptB pq h).sentHeaders = h
    ∧ (headersForLogs h).app_id = "*hidden*"
    ∧ (headersForLogs h).api_key = "*hidden*"
    ∧ (pq = true → (makeRequestTranscriptB pq h).loggedHeaders = some (headersForLogs h))
    ∧ (pq = false → (makeRequestTranscriptB pq h).loggedHeaders = none)
    ∧ (makeRequestTranscriptB pq h').loggedHeaders
        = (makeRequestTranscriptB pq h).loggedHeaders := by
  have hlogs : ∀ g : Headers, g.app_id ≠ "" → g.api_key ≠ "" →
      headersForLogs g = ⟨g.content_type, g.accept, g.user_agent, "*hidden*", "*hidden*"⟩ := by
    intro g hga hgk
    simp [headersForLogs, beq_eq_false_iff_ne.mpr hga, beq_eq_false_iff_ne.mpr hgk]
  refine ⟨rfl, by rw [hlogs h ha hk], by rw [hlogs h ha hk], ?_, ?_, ?_⟩
  · rintro rfl; rfl
  · rintro rfl; rfl
  · cases pq with
    | false => rfl
    | true =>
      show some (headersForLogs h') = some (headersForLogs h)
      rw [hlogs h' ha' hk', hlogs h ha hk, hct, hac, hua]

/-- Counterexample to claim C10 as stated: in algorithms.py, with verbose
logging enabled, the logged header map is the raw one — the credentials
appear verbatim, are not `*hidden*`, and the log output changes when only
the API key changes. -/
theorem credential_log_claim_cex :
    (makeRequestTranscriptA true
        ⟨"application/json", "application/vnd.wkt+json", "ID123", "SECRET"⟩).loggedHeaders
      = some ⟨"application/json", "application/vnd.wkt+json", "ID123", "SECRET"⟩
    ∧ ("SECRET" : String) ≠ "*hidden*"
    ∧ makeRequestTranscriptA true
        ⟨"application/json", "application/vnd.wkt+json", "ID123", "SECRET"⟩
      ≠ makeRequestTranscriptA true
        ⟨"application/json", "application/vnd.wkt+json", "ID123", "OTHER"⟩ := by
  exact ⟨rfl, by decide, by decide⟩

/-- Witness for C10 (amended) on concrete headers. -/
theorem credential_log_redaction_inst :
    (makeRequestTranscriptB true
        ⟨"application/json", "application/json", "UA", "ID123", "SECRET"⟩).sentHeaders
      = ⟨"application/json", "application/json", "UA", "ID123", "SECRET"⟩
    ∧ (headersForLogs
        ⟨"application/json", "application/json", "UA", "ID123", "SECRET"⟩).api_key
      = "*hidden*" := by
  have h := credential_log_redaction true
    ⟨"application/json", "application/json", "UA", "ID123", "SECRET"⟩
    ⟨"application/json", "application/json", "UA", "ID999", "OTHER"⟩
    (by decide) (by decide) (by decide) (by decide) rfl rfl rfl
  exact ⟨h.1, h.2.2.1⟩

end TTP
